import Mathlib

/-!
Shallow embedding of the peer-connection registry core of the
P2PChat_Snitcher repository (`src/P2P_Chat_Snitcher.py` and `src/app.py`).

Python strings are modelled as lists of characters (`PyStr`), the global
`active_peers` dictionary as an association list with Python-dict semantics
(`Registry`), sockets as numeric connection identifiers (`ConnId`), and every
`sock.close()` call as an append to a close log.  Each section of source code
executed under `peers_lock` is modelled as one atomic state transformer.
The two source files share the registry logic almost verbatim; where they
differ (the reader's `current_peer` update after a CONNECT frame) both
variants are embedded.
-/

/-- Python `str` modelled as a list of characters (a Python string is a
sequence of code points). -/
abbrev PyStr := List Char

/-- Python `str.strip()`, restricted to the ASCII whitespace that actually
occurs in this protocol's frames. -/
def pyStrip (s : PyStr) : PyStr :=
  ((s.dropWhile Char.isWhitespace).reverse.dropWhile Char.isWhitespace).reverse

/-- Python `str.lower()`; ASCII letters suffice for the frames used here. -/
def pyLower (s : PyStr) : PyStr := s.map Char.toLower

/-- Accumulate the numeric value of a decimal digit string. -/
def digitsVal (l : PyStr) : Nat :=
  l.foldl (fun acc c => 10 * acc + (c.toNat - '0'.toNat)) 0

/-- Python `int(s)` as used on the payload of a `CONNECT:` frame: optional
surrounding whitespace, an optional sign, then decimal digits; anything else
raises `ValueError`, modelled as `none`.  (Digit-group underscores, accepted
by CPython, are not modelled; no frame in this protocol uses them.) -/
def pyParseInt (s : PyStr) : Option Int :=
  match pyStrip s with
  | [] => none
  | '-' :: rest =>
      if rest ≠ [] ∧ rest.all Char.isDigit then some (-(digitsVal rest : Int)) else none
  | '+' :: rest =>
      if rest ≠ [] ∧ rest.all Char.isDigit then some ((digitsVal rest : Int)) else none
  | l => if l.all Char.isDigit then some ((digitsVal l : Int)) else none

/-- A host string, as produced by `socket` addresses. -/
abbrev Host := PyStr

/-- A port; Python `int(...)` can in principle yield negative values, so the
model uses `Int`. -/
abbrev Port := Int

/-- A `PeerAddress`: the `(ip, port)` tuples keying `active_peers`. -/
abbrev Addr := Host × Port

/-- A socket object's identity; `sock.close()` / `is`-comparison only need
identity, so sockets are modelled by numeric ids. -/
abbrev ConnId := Nat

/-- The `active_peers` dictionary: an insertion-ordered association list with
Python-dict semantics (operations below keep keys unique when they start
unique, exactly as a dict does). -/
abbrev Registry := List (Addr × ConnId)

/-- Python `active_peers.get(a)` / `active_peers[a]`: value at key `a`. -/
def dictLookup : Registry → Addr → Option ConnId
  | [], _ => none
  | p :: rest, a => if p.1 = a then some p.2 else dictLookup rest a

/-- Python `a in active_peers`. -/
def dictMem (r : Registry) (a : Addr) : Bool := (dictLookup r a).isSome

/-- Python `active_peers[a] = c`: replace in place if the key is present
(keeping its position, as dicts do), else append. -/
def dictInsert : Registry → Addr → ConnId → Registry
  | [], a, c => [(a, c)]
  | p :: rest, a, c => if p.1 = a then (a, c) :: rest else p :: dictInsert rest a c

/-- Python `active_peers.pop(a)` / `active_peers.pop(a, None)`: drop key `a`. -/
def dictPop (r : Registry) (a : Addr) : Registry :=
  r.filter (fun p => !decide (p.1 = a))

/-- No two entries share a PeerAddress. -/
def keysNodup (r : Registry) : Prop := (r.map Prod.fst).Nodup

instance (r : Registry) : Decidable (keysNodup r) := by
  unfold keysNodup
  infer_instance

/-- Number of entries stored under key `a`. -/
def countKey (r : Registry) (a : Addr) : Nat :=
  (r.filter (fun p => decide (p.1 = a))).length

/-- The process state touched by the registry operations: the `active_peers`
dictionary plus a log of every `sock.close()` call (by socket id), so that
"closed exactly once" is expressible. -/
structure NetState where
  registry : Registry
  closeLog : List ConnId
deriving DecidableEq

/-- `server_thread` (both files): after `accept`, under `peers_lock` it runs
`active_peers[addr] = conn` — a plain dict assignment, with no close of any
displaced entry.  The same assignment form is used by the dialer paths of
`send_message` / `connect_to_peer` (`active_peers[sock.getpeername()] = sock`). -/
def acceptInsert (s : NetState) (addr : Addr) (conn : ConnId) : NetState :=
  { s with registry := dictInsert s.registry addr conn }

/-- The locked CONNECT-handling block of `handle_client` (identical in both
files): `if current_peer in active_peers: active_peers.pop(current_peer)`;
`if new_peer in active_peers: active_peers[new_peer].close()`;
`active_peers[new_peer] = conn`. -/
def rekeyLocked (s : NetState) (conn : ConnId) (currentPeer newPeer : Addr) : NetState :=
  let r1 := if dictMem s.registry currentPeer then dictPop s.registry currentPeer
            else s.registry
  match dictLookup r1 newPeer with
  | some displaced =>
      { registry := dictInsert r1 newPeer conn, closeLog := s.closeLog ++ [displaced] }
  | none =>
      { registry := dictInsert r1 newPeer conn, closeLog := s.closeLog }

/-- The per-connection reader state of `handle_client`: the socket it owns and
its `current_peer` variable. -/
structure ReaderState where
  conn : ConnId
  currentPeer : Addr
deriving DecidableEq

/-- The `finally` block of `handle_client` (identical in both files): under
the lock, `if current_peer in active_peers: active_peers.pop(current_peer)`;
then `conn.close()`. -/
def readerExit (rs : ReaderState) (s : NetState) : NetState :=
  let r := if dictMem s.registry rs.currentPeer then dictPop s.registry rs.currentPeer
           else s.registry
  { registry := r, closeLog := s.closeLog ++ [rs.conn] }

/-- Classification of one decoded recv chunk by the `handle_client` loop body,
in the source's test order: empty after strip → skipped; starts with
`"CONNECT:"` → re-key frame (or invalid if `int(...)` fails on the part after
the first colon, i.e. the string after the 8-character tag); lower-cases to
`"exit"` → disconnect; anything else → chat text. -/
inductive FrameClass where
  | emptyFrame : FrameClass
  | rekeyFrame : Int → FrameClass
  | invalidConnect : FrameClass
  | exitFrame : FrameClass
  | chatFrame : PyStr → FrameClass
deriving DecidableEq

/-- Literal `"CONNECT:"` from the source. -/
def connectTag : PyStr := "CONNECT:".data

/-- Literal `"exit"` from the source. -/
def exitWord : PyStr := "exit".data

/-- The branch taken by `handle_client` on one decoded chunk `data`
(`message = data.decode().strip()`; `message.split(":", 1)[1]` equals
`message.drop 8` when `message` starts with the tag, whose first colon is its
final character). -/
def classifyFrame (data : PyStr) : FrameClass :=
  if pyStrip data = [] then .emptyFrame
  else if connectTag.isPrefixOf (pyStrip data) then
    match pyParseInt ((pyStrip data).drop 8) with
    | some p => .rekeyFrame p
    | none => .invalidConnect
  else if pyLower (pyStrip data) = exitWord then .exitFrame
  else .chatFrame (pyStrip data)

/-- Outcome of one iteration of the `handle_client` loop: keep looping (with
possibly updated reader/registry state) or leave the loop (the `finally`
block, `readerExit`, then runs). -/
inductive StepResult where
  | next : ReaderState → NetState → StepResult
  | stop : ReaderState → NetState → StepResult
deriving DecidableEq

/-- The network state carried by a step result. -/
def StepResult.state : StepResult → NetState
  | .next _ s => s
  | .stop _ s => s

/-- The reader state carried by a step result. -/
def StepResult.reader : StepResult → ReaderState
  | .next rs _ => rs
  | .stop rs _ => rs

/-- One loop iteration of `handle_client` in `src/P2P_Chat_Snitcher.py` on
decoded chunk `data`.  Note: after a valid CONNECT frame this file keeps
`current_peer` unchanged (its docstring: the global dict is updated "but do
not change the local addr used for printing"). -/
def handleFrameSnitcher (rs : ReaderState) (s : NetState) (data : PyStr) : StepResult :=
  match classifyFrame data with
  | .emptyFrame => .next rs s
  | .invalidConnect => .next rs s
  | .rekeyFrame p =>
      .next rs (rekeyLocked s rs.conn rs.currentPeer (rs.currentPeer.1, p))
  | .exitFrame => .stop rs s
  | .chatFrame _ => .next rs s

/-- One loop iteration of `handle_client` in `src/app.py` on decoded chunk
`data`.  Identical to the Snitcher variant except that after a valid CONNECT
frame it executes `current_peer = new_peer`. -/
def handleFrameApp (rs : ReaderState) (s : NetState) (data : PyStr) : StepResult :=
  match classifyFrame data with
  | .emptyFrame => .next rs s
  | .invalidConnect => .next rs s
  | .rekeyFrame p =>
      .next ⟨rs.conn, (rs.currentPeer.1, p)⟩
        (rekeyLocked s rs.conn rs.currentPeer (rs.currentPeer.1, p))
  | .exitFrame => .stop rs s
  | .chatFrame _ => .next rs s

/-- The value a Python function returns when it falls off the end or executes
a bare `return`: `None`.  Both `send_message` and `connect_to_peer` have this
as their only return value. -/
inductive PyNone where
  | none : PyNone
deriving DecidableEq

/-- Oracle for the nondeterministic outcome of `sock.connect(target)` in the
dialer path: failure (exception), or success together with the
`sock.getpeername()` value and the new socket's identity. -/
inductive DialOutcome where
  | fail : DialOutcome
  | ok : Addr → ConnId → DialOutcome
deriving DecidableEq

/-- Oracle for the outcome of a `sock.sendall(...)` call. -/
inductive IOOutcome where
  | ok : IOOutcome
  | err : IOOutcome
deriving DecidableEq

/-- The `try: sock.sendall(...)` tail of `send_message` (both files): on
success, if the payload lower-cases to `"exit"`, pop the target and close the
socket; on exception, pop the target and close the socket. -/
def sendPhase (s : NetState) (target : Addr) (message : PyStr) (sock : ConnId)
    (wr : IOOutcome) : NetState × PyNone :=
  match wr with
  | .ok =>
      if pyLower message = exitWord then
        ({ registry := dictPop s.registry target, closeLog := s.closeLog ++ [sock] },
         .none)
      else (s, .none)
  | .err =>
      ({ registry := dictPop s.registry target, closeLog := s.closeLog ++ [sock] },
       .none)

/-- `send_message(target_ip, target_port, message)` (both files): look up the
target; if absent, dial — on dial failure just `return` (no state change, `None`
returned); on dial success register the new socket at `getpeername()` with a
plain dict assignment (no close of a displaced entry) — then run the send
phase.  The Python function returns `None` on every path. -/
def send_message (s : NetState) (target : Addr) (message : PyStr)
    (dial : DialOutcome) (wr : IOOutcome) : NetState × PyNone :=
  match dictLookup s.registry target with
  | some sock => sendPhase s target message sock wr
  | none =>
      match dial with
      | .fail => (s, .none)
      | .ok peername sock =>
          sendPhase { s with registry := dictInsert s.registry peername sock }
            target message sock wr

/-- The `try: sock.sendall(connect_msg)` tail of `connect_to_peer`: on
success nothing further happens; on exception, pop the target and close. -/
def connectPhase (s : NetState) (target : Addr) (sock : ConnId)
    (wr : IOOutcome) : NetState × PyNone :=
  match wr with
  | .ok => (s, .none)
  | .err =>
      ({ registry := dictPop s.registry target, closeLog := s.closeLog ++ [sock] },
       .none)

/-- `connect_to_peer(target_ip, target_port)` (both files): same
find-or-dial-and-register preamble as `send_message`, then writes the fixed
`CONNECT:<my_listen_port>` payload (whose content does not affect local
state).  Returns `None` on every path. -/
def connect_to_peer (s : NetState) (target : Addr)
    (dial : DialOutcome) (wr : IOOutcome) : NetState × PyNone :=
  match dictLookup s.registry target with
  | some sock => connectPhase s target sock wr
  | none =>
      match dial with
      | .fail => (s, .none)
      | .ok peername sock =>
          connectPhase { s with registry := dictInsert s.registry peername sock }
            target sock wr

/-- Host used in the spec's concrete scenario. -/
def hostA : PyStr := "10.0.0.5".data

/-! Dictionary lemmas: the association-list operations above behave like a
Python dict whenever keys start out unique, and key uniqueness is preserved. -/

theorem dictLookup_insert_self (r : Registry) (a : Addr) (c : ConnId) :
    dictLookup (dictInsert r a c) a = some c := by
  induction r with
  | nil => simp [dictInsert, dictLookup]
  | cons p tl ih =>
      by_cases h : p.1 = a
      · simp [dictInsert, h, dictLookup]
      · simp [dictInsert, h, dictLookup, ih]

theorem dictLookup_insert_ne (r : Registry) (a b : Addr) (c : ConnId) (h : b ≠ a) :
    dictLookup (dictInsert r a c) b = dictLookup r b := by
  induction r with
  | nil => simp [dictInsert, dictLookup, Ne.symm h]
  | cons p tl ih =>
      by_cases hp : p.1 = a
      · rw [show dictInsert (p :: tl) a c = (a, c) :: tl by simp [dictInsert, hp]]
        simp [dictLookup, hp, Ne.symm h]
      · rw [show dictInsert (p :: tl) a c = p :: dictInsert tl a c by
          simp [dictInsert, hp]]
        by_cases hb : p.1 = b
        · simp [dictLookup, hb]
        · simp [dictLookup, hb, ih]

theorem dictLookup_pop_self (r : Registry) (a : Addr) :
    dictLookup (dictPop r a) a = none := by
  induction r with
  | nil => rfl
  | cons p tl ih =>
      simp only [dictPop, List.filter_cons] at ih ⊢
      by_cases h : p.1 = a
      · rw [if_neg (by simp [h])]
        exact ih
      · rw [if_pos (by simp [h]), dictLookup, if_neg h]
        exact ih

theorem dictLookup_pop_ne (r : Registry) (a b : Addr) (h : b ≠ a) :
    dictLookup (dictPop r a) b = dictLookup r b := by
  induction r with
  | nil => rfl
  | cons p tl ih =>
      simp only [dictPop, List.filter_cons] at ih ⊢
      by_cases hp : p.1 = a
      · have hb : ¬ p.1 = b := by rw [hp]; exact fun he => h he.symm
        rw [if_neg (by simp [hp]), ih]
        exact (by rw [dictLookup, if_neg hb] :
          dictLookup (p :: tl) b = dictLookup tl b).symm
      · rw [if_pos (by simp [hp])]
        by_cases hb : p.1 = b
        · rw [dictLookup, if_pos hb, dictLookup, if_pos hb]
        · rw [dictLookup, if_neg hb, dictLookup, if_neg hb]
          exact ih

theorem dictPop_of_none (r : Registry) (a : Addr) :
    dictLookup r a = none → dictPop r a = r := by
  induction r with
  | nil => intro _; rfl
  | cons p tl ih =>
      intro h
      by_cases hp : p.1 = a
      · rw [dictLookup, if_pos hp] at h
        simp at h
      · rw [dictLookup, if_neg hp] at h
        simp only [dictPop, List.filter_cons] at ih ⊢
        rw [if_pos (by simp [hp]), ih h]

theorem dictInsert_of_some (r : Registry) (a : Addr) (c : ConnId) :
    dictLookup r a = some c → dictInsert r a c = r := by
  induction r with
  | nil => intro h; simp [dictLookup] at h
  | cons p tl ih =>
      intro h
      by_cases hp : p.1 = a
      · rw [dictLookup, if_pos hp] at h
        have h2 : p.2 = c := Option.some_inj.mp h
        have hpp : p = (a, c) := by
          cases p with
          | mk x y =>
              simp only at hp h2
              simp [hp, h2]
        simp [dictInsert, hp, hpp]
      · rw [dictLookup, if_neg hp] at h
        simp [dictInsert, hp, ih h]

theorem dictMem_false_lookup (r : Registry) (a : Addr) (h : ¬ dictMem r a = true) :
    dictLookup r a = none := by
  unfold dictMem at h
  exact Option.not_isSome_iff_eq_none.mp (by simpa using h)

theorem not_mem_keys (r : Registry) (a : Addr) :
    dictLookup r a = none → a ∉ r.map Prod.fst := by
  induction r with
  | nil => intro _; simp
  | cons p tl ih =>
      intro h
      by_cases hp : p.1 = a
      · rw [dictLookup, if_pos hp] at h
        simp at h
      · rw [dictLookup, if_neg hp] at h
        simp only [List.map_cons, List.mem_cons]
        push_neg
        exact ⟨fun he => hp he.symm, ih h⟩

theorem keys_dictInsert (r : Registry) (a : Addr) (c : ConnId) :
    (dictInsert r a c).map Prod.fst
      = if dictMem r a then r.map Prod.fst else r.map Prod.fst ++ [a] := by
  induction r with
  | nil => simp [dictInsert, dictMem, dictLookup]
  | cons p tl ih =>
      by_cases h : p.1 = a
      · have hm : dictMem (p :: tl) a = true := by
          simp [dictMem, dictLookup, h]
        rw [if_pos hm]
        simp [dictInsert, h]
      · have hm2 : dictMem (p :: tl) a = dictMem tl a := by
          simp [dictMem, dictLookup, h]
        rw [hm2]
        by_cases hma : dictMem tl a
        · rw [if_pos hma]
          rw [if_pos hma] at ih
          simp [dictInsert, h, ih]
        · rw [if_neg hma]
          rw [if_neg hma] at ih
          simp [dictInsert, h, ih]

theorem keysNodup_insert (r : Registry) (a : Addr) (c : ConnId)
    (h : keysNodup r) : keysNodup (dictInsert r a c) := by
  unfold keysNodup at h ⊢
  rw [keys_dictInsert]
  by_cases hm : dictMem r a
  · rw [if_pos hm]; exact h
  · rw [if_neg hm]
    have ha : a ∉ r.map Prod.fst := not_mem_keys r a (dictMem_false_lookup r a hm)
    refine List.Nodup.append h (List.nodup_singleton a) ?_
    intro x hx hxa
    rw [List.mem_singleton] at hxa
    exact ha (hxa ▸ hx)

theorem keysNodup_pop (r : Registry) (a : Addr) (h : keysNodup r) :
    keysNodup (dictPop r a) := by
  unfold keysNodup at h ⊢
  exact List.Nodup.sublist (List.Sublist.map Prod.fst (List.filter_sublist r)) h

theorem countKey_eq_zero (r : Registry) (a : Addr) :
    a ∉ r.map Prod.fst → countKey r a = 0 := by
  induction r with
  | nil => intro _; rfl
  | cons p tl ih =>
      intro h
      simp only [List.map_cons, List.mem_cons] at h
      push_neg at h
      have hp : ¬ p.1 = a := fun he => h.1 he.symm
      simp only [countKey, List.filter_cons, decide_eq_true_eq, hp, if_false]
      exact ih h.2

theorem countKey_eq_one (r : Registry) (a : Addr) (c : ConnId) :
    keysNodup r → dictLookup r a = some c → countKey r a = 1 := by
  induction r with
  | nil => intro _ h; simp [dictLookup] at h
  | cons p tl ih =>
      intro hnd h
      unfold keysNodup at hnd
      simp only [List.map_cons, List.nodup_cons] at hnd
      by_cases hp : p.1 = a
      · have hnotin : a ∉ tl.map Prod.fst := hp ▸ hnd.1
        simp only [countKey, List.filter_cons, decide_eq_true_eq, hp, if_true,
          List.length_cons]
        have hz := countKey_eq_zero tl a hnotin
        simp only [countKey] at hz
        simp [hz]
      · rw [dictLookup, if_neg hp] at h
        simp only [countKey, List.filter_cons, decide_eq_true_eq, hp, if_false]
        exact ih hnd.2 h

/-! Lemmas unpacking the composite locked sections. -/

theorem popIf_eq_pop (r : Registry) (a : Addr) :
    (if dictMem r a then dictPop r a else r) = dictPop r a := by
  by_cases hm : dictMem r a
  · rw [if_pos hm]
  · rw [if_neg hm, dictPop_of_none r a (dictMem_false_lookup r a hm)]

theorem rekeyLocked_registry (s : NetState) (conn : ConnId) (old new : Addr) :
    (rekeyLocked s conn old new).registry
      = dictInsert (dictPop s.registry old) new conn := by
  rcases h : dictLookup (dictPop s.registry old) new with _ | d <;>
    simp [rekeyLocked, popIf_eq_pop, h]

theorem rekeyLocked_closeLog (s : NetState) (conn : ConnId) (old new : Addr) :
    (rekeyLocked s conn old new).closeLog
      = s.closeLog ++ (dictLookup (dictPop s.registry old) new).toList := by
  rcases h : dictLookup (dictPop s.registry old) new with _ | d <;>
    simp [rekeyLocked, popIf_eq_pop, h]

theorem readerExit_registry (rs : ReaderState) (s : NetState) :
    (readerExit rs s).registry = dictPop s.registry rs.currentPeer := by
  simp [readerExit, popIf_eq_pop]

theorem readerExit_closeLog (rs : ReaderState) (s : NetState) :
    (readerExit rs s).closeLog = s.closeLog ++ [rs.conn] := rfl

/-! Claim theorems. -/

/-- C2 counterexample: the claim says the CONNECT re-key removes the old
address only if it still maps to this reader's own connection.  In the code
the locked block runs `if current_peer in active_peers:
active_peers.pop(current_peer)` — a membership test only.  Concretely: the
registry maps (10.0.0.5, 54321) to connection 2, yet when reader of
connection 1 re-keys from (10.0.0.5, 54321) to (10.0.0.5, 8000), the entry of
connection 2 is removed rather than left untouched. -/
theorem c2_rekey_no_identity_guard_cex :
    dictLookup [((hostA, 54321), 2)] (hostA, 54321) = some 2 ∧
    dictLookup (rekeyLocked ⟨[((hostA, 54321), 2)], []⟩ 1 (hostA, 54321)
      (hostA, 8000)).registry (hostA, 54321) = none := by
  decide

/-- C2 amended: on a CONNECT re-key with distinct old and new addresses, the
old address is removed from the registry unconditionally — whatever connection
it mapped to, and whether or not that is the re-keying reader's own connection
— while the new address ends up mapped to the reader's connection and all
other addresses are untouched. -/
theorem c2_rekey_pops_old_unconditionally (s : NetState) (conn : ConnId)
    (old new : Addr) (h : old ≠ new) :
    dictLookup (rekeyLocked s conn old new).registry old = none ∧
    dictLookup (rekeyLocked s conn old new).registry new = some conn ∧
    ∀ a : Addr, a ≠ old → a ≠ new →
      dictLookup (rekeyLocked s conn old new).registry a
        = dictLookup s.registry a := by
  refine ⟨?_, ?_, ?_⟩
  · rw [rekeyLocked_registry, dictLookup_insert_ne _ _ _ _ h, dictLookup_pop_self]
  · rw [rekeyLocked_registry, dictLookup_insert_self]
  · intro a ha1 ha2
    rw [rekeyLocked_registry, dictLookup_insert_ne _ _ _ _ ha2,
      dictLookup_pop_ne _ _ _ ha1]

/-- C2 witness: the amended statement evaluated on a concrete registry holding
(10.0.0.5, 54321) ↦ 2 and (10.0.0.5, 9000) ↦ 7, re-keyed by connection 1 from
(10.0.0.5, 54321) to (10.0.0.5, 8000). -/
theorem c2_rekey_pops_old_unconditionally_witness :
    dictLookup (rekeyLocked ⟨[((hostA, 54321), 2), ((hostA, 9000), 7)], []⟩ 1
      (hostA, 54321) (hostA, 8000)).registry (hostA, 54321) = none ∧
    dictLookup (rekeyLocked ⟨[((hostA, 54321), 2), ((hostA, 9000), 7)], []⟩ 1
      (hostA, 54321) (hostA, 8000)).registry (hostA, 8000) = some 1 ∧
    dictLookup (rekeyLocked ⟨[((hostA, 54321), 2), ((hostA, 9000), 7)], []⟩ 1
      (hostA, 54321) (hostA, 8000)).registry (hostA, 9000) = some 7 := by
  have h := c2_rekey_pops_old_unconditionally
    ⟨[((hostA, 54321), 2), ((hostA, 9000), 7)], []⟩ 1
    (hostA, 54321) (hostA, 8000) (by decide)
  refine ⟨h.1, h.2.1, ?_⟩
  rw [h.2.2 (hostA, 9000) (by decide) (by decide)]
  decide

/-- C3 counterexample: the claim says the reader-exit cleanup removes its
current peer address only if that address still maps to this reader's own
connection.  The `finally` block runs `if current_peer in active_peers:
active_peers.pop(current_peer)` — a membership test only.  Concretely: the
registry maps (10.0.0.5, 54321) to connection 2, yet when the reader owning
connection 1 (whose `current_peer` is that address) exits, connection 2's slot
is deleted. -/
theorem c3_reader_exit_no_identity_guard_cex :
    dictLookup [((hostA, 54321), 2)] (hostA, 54321) = some 2 ∧
    dictLookup (readerExit ⟨1, (hostA, 54321)⟩
      ⟨[((hostA, 54321), 2)], []⟩).registry (hostA, 54321) = none ∧
    (readerExit ⟨1, (hostA, 54321)⟩ ⟨[((hostA, 54321), 2)], []⟩).closeLog = [1] := by
  decide

/-- C3 amended: on reader exit, the reader's current peer address is removed
from the registry unconditionally — whatever connection it maps to, including
a slot already taken by a newer connection — the reader's own stream is
closed, and all other addresses are untouched. -/
theorem c3_reader_exit_removes_unconditionally (rs : ReaderState) (s : NetState) :
    dictLookup (readerExit rs s).registry rs.currentPeer = none ∧
    (readerExit rs s).closeLog = s.closeLog ++ [rs.conn] ∧
    ∀ a : Addr, a ≠ rs.currentPeer →
      dictLookup (readerExit rs s).registry a = dictLookup s.registry a := by
  refine ⟨?_, readerExit_closeLog rs s, ?_⟩
  · rw [readerExit_registry, dictLookup_pop_self]
  · intro a ha
    rw [readerExit_registry, dictLookup_pop_ne _ _ _ ha]

/-- C3 witness: the amended statement evaluated with reader ⟨1, (10.0.0.5,
54321)⟩ exiting over a registry holding (10.0.0.5, 54321) ↦ 2 and
(10.0.0.5, 9000) ↦ 7. -/
theorem c3_reader_exit_removes_unconditionally_witness :
    dictLookup (readerExit ⟨1, (hostA, 54321)⟩
      ⟨[((hostA, 54321), 2), ((hostA, 9000), 7)], []⟩).registry
      (hostA, 54321) = none ∧
    (readerExit ⟨1, (hostA, 54321)⟩
      ⟨[((hostA, 54321), 2), ((hostA, 9000), 7)], []⟩).closeLog = [1] ∧
    dictLookup (readerExit ⟨1, (hostA, 54321)⟩
      ⟨[((hostA, 54321), 2), ((hostA, 9000), 7)], []⟩).registry
      (hostA, 9000) = some 7 := by
  have h := c3_reader_exit_removes_unconditionally ⟨1, (hostA, 54321)⟩
    ⟨[((hostA, 54321), 2), ((hostA, 9000), 7)], []⟩
  refine ⟨h.1, h.2.1, ?_⟩
  rw [h.2.2 (hostA, 9000) (by decide)]
  decide

/-- C4 counterexample: the claim says that after a well-formed CONNECT frame
the reader's notion of the current peer address is updated to the declared
address.  In `src/P2P_Chat_Snitcher.py` it is not (by that file's own
docstring, display keeps the original connection port): after processing
`CONNECT:8000` the reader's `current_peer` is still the ephemeral
(10.0.0.5, 54321) — a different address from the declared (10.0.0.5, 8000),
under which the registry now holds the connection.  Subsequent exit-cleanup
therefore uses the ephemeral address. -/
theorem c4_snitcher_keeps_ephemeral_cex :
    (handleFrameSnitcher ⟨1, (hostA, 54321)⟩ ⟨[((hostA, 54321), 1)], []⟩
      "CONNECT:8000".data).reader.currentPeer = (hostA, 54321) ∧
    ((hostA, 54321) : Addr) ≠ (hostA, 8000) ∧
    dictLookup (handleFrameSnitcher ⟨1, (hostA, 54321)⟩
      ⟨[((hostA, 54321), 1)], []⟩ "CONNECT:8000".data).state.registry
      (hostA, 8000) = some 1 := by
  decide

/-- C4 amended: after a well-formed CONNECT frame, the `app.py` reader updates
its current peer address to the declared one (so its display, chat tagging and
exit-cleanup use it), while the `P2P_Chat_Snitcher.py` reader deliberately
keeps the original ephemeral address; the registry effect of the frame is the
same in both files. -/
theorem c4_current_peer_update_app_only (rs : ReaderState) (s : NetState)
    (data : PyStr) (p : Int) (h : classifyFrame data = .rekeyFrame p) :
    (handleFrameApp rs s data).reader.currentPeer = (rs.currentPeer.1, p) ∧
    (handleFrameSnitcher rs s data).reader.currentPeer = rs.currentPeer ∧
    (handleFrameApp rs s data).state = (handleFrameSnitcher rs s data).state := by
  unfold handleFrameApp handleFrameSnitcher
  rw [h]
  exact ⟨rfl, rfl, rfl⟩

/-- C5: handshake re-key round trip (confirmed).  Register an accepted
connection under its ephemeral address `(host, pEph)`; when the peer's next
frame classifies as a well-formed CONNECT declaring `pDecl ≠ pEph`, both
files' readers transform the state by the locked re-key, after which the
registry maps `(host, pDecl)` to the same connection and no longer holds
`(host, pEph)`. -/
theorem c5_handshake_rekey_round_trip (s : NetState) (host : Host)
    (pEph pDecl : Port) (conn : ConnId) (data : PyStr)
    (hfr : classifyFrame data = .rekeyFrame pDecl) (hne : pDecl ≠ pEph) :
    (handleFrameApp ⟨conn, (host, pEph)⟩ (acceptInsert s (host, pEph) conn)
        data).state
      = rekeyLocked (acceptInsert s (host, pEph) conn) conn (host, pEph)
          (host, pDecl) ∧
    (handleFrameSnitcher ⟨conn, (host, pEph)⟩ (acceptInsert s (host, pEph) conn)
        data).state
      = rekeyLocked (acceptInsert s (host, pEph) conn) conn (host, pEph)
          (host, pDecl) ∧
    dictLookup (rekeyLocked (acceptInsert s (host, pEph) conn) conn (host, pEph)
        (host, pDecl)).registry (host, pDecl) = some conn ∧
    dictLookup (rekeyLocked (acceptInsert s (host, pEph) conn) conn (host, pEph)
        (host, pDecl)).registry (host, pEph) = none := by
  have hadr : ((host, pEph) : Addr) ≠ (host, pDecl) := fun he =>
    hne (congrArg Prod.snd he).symm
  refine ⟨?_, ?_, ?_, ?_⟩
  · unfold handleFrameApp
    rw [hfr]
    rfl
  · unfold handleFrameSnitcher
    rw [hfr]
    rfl
  · rw [rekeyLocked_registry, dictLookup_insert_self]
  · rw [rekeyLocked_registry, dictLookup_insert_ne _ _ _ _ hadr,
      dictLookup_pop_self]

/-- C5 witness: the spec scenario — host 10.0.0.5, ephemeral port 54321,
declared port 8000, frame `CONNECT:8000`, starting from an empty registry. -/
theorem c5_handshake_rekey_round_trip_witness :
    dictLookup (rekeyLocked (acceptInsert ⟨[], []⟩ (hostA, 54321) 1) 1
      (hostA, 54321) (hostA, 8000)).registry (hostA, 8000) = some 1 ∧
    dictLookup (rekeyLocked (acceptInsert ⟨[], []⟩ (hostA, 54321) 1) 1
      (hostA, 54321) (hostA, 8000)).registry (hostA, 54321) = none := by
  have h := c5_handshake_rekey_round_trip ⟨[], []⟩ hostA 54321 8000 1
    "CONNECT:8000".data (by decide) (by decide)
  exact ⟨h.2.2.1, h.2.2.2⟩

/-- C7: re-key idempotence (confirmed).  Starting from any duplicate-free
registry, performing the locked re-key step for the same (A, B, conn) twice
in a row leaves the registry identical to the single application, with
exactly one entry at B (mapped to conn) and none at A.  (The second
application does close conn's own stream as a side effect of the eviction
branch, which the claim does not address.) -/
theorem c7_rekey_idempotent (s : NetState) (conn : ConnId) (A B : Addr)
    (hAB : A ≠ B) (hnd : keysNodup s.registry) :
    (rekeyLocked (rekeyLocked s conn A B) conn A B).registry
      = (rekeyLocked s conn A B).registry ∧
    dictLookup (rekeyLocked (rekeyLocked s conn A B) conn A B).registry B
      = some conn ∧
    dictLookup (rekeyLocked (rekeyLocked s conn A B) conn A B).registry A
      = none ∧
    countKey (rekeyLocked (rekeyLocked s conn A B) conn A B).registry B = 1 := by
  have hr1 : (rekeyLocked s conn A B).registry
      = dictInsert (dictPop s.registry A) B conn := rekeyLocked_registry s conn A B
  have hlA : dictLookup (rekeyLocked s conn A B).registry A = none := by
    rw [hr1, dictLookup_insert_ne _ _ _ _ hAB, dictLookup_pop_self]
  have hlB : dictLookup (rekeyLocked s conn A B).registry B = some conn := by
    rw [hr1, dictLookup_insert_self]
  have hr2 : (rekeyLocked (rekeyLocked s conn A B) conn A B).registry
      = (rekeyLocked s conn A B).registry := by
    rw [rekeyLocked_registry, dictPop_of_none _ _ hlA, dictInsert_of_some _ _ _ hlB]
  have hnd1 : keysNodup (rekeyLocked s conn A B).registry := by
    rw [hr1]
    exact keysNodup_insert _ _ _ (keysNodup_pop _ _ hnd)
  refine ⟨hr2, ?_, ?_, ?_⟩
  · rw [hr2]; exact hlB
  · rw [hr2]; exact hlA
  · rw [hr2]; exact countKey_eq_one _ _ _ hnd1 hlB

/-- C7 witness: two identical re-keys of connection 1 from (10.0.0.5, 54321)
to (10.0.0.5, 8000) over a singleton registry. -/
theorem c7_rekey_idempotent_witness :
    dictLookup (rekeyLocked (rekeyLocked ⟨[((hostA, 54321), 1)], []⟩ 1
      (hostA, 54321) (hostA, 8000)) 1 (hostA, 54321) (hostA, 8000)).registry
      (hostA, 8000) = some 1 ∧
    dictLookup (rekeyLocked (rekeyLocked ⟨[((hostA, 54321), 1)], []⟩ 1
      (hostA, 54321) (hostA, 8000)) 1 (hostA, 54321) (hostA, 8000)).registry
      (hostA, 54321) = none ∧
    countKey (rekeyLocked (rekeyLocked ⟨[((hostA, 54321), 1)], []⟩ 1
      (hostA, 54321) (hostA, 8000)) 1 (hostA, 54321) (hostA, 8000)).registry
      (hostA, 8000) = 1 := by
  have h := c7_rekey_idempotent ⟨[((hostA, 54321), 1)], []⟩ 1
    (hostA, 54321) (hostA, 8000) (by decide) (by decide)
  exact ⟨h.2.1, h.2.2.1, h.2.2.2⟩

/-- C10: control-frame dispatch is case-sensitive on the CONNECT prefix
(confirmed).  `CONNECT:8000` classifies as a re-key; the case variants
`connect:8000` and `Connect:8000` classify as ordinary chat text; the exit
sentinel in the same loop is matched case-insensitively (`ExIt` disconnects);
and in general a frame only classifies as a re-key when the trimmed text
starts with the exact upper-case tag `CONNECT:`. -/
theorem c10_connect_dispatch_case_sensitive :
    classifyFrame "CONNECT:8000".data = .rekeyFrame 8000 ∧
    classifyFrame "connect:8000".data = .chatFrame "connect:8000".data ∧
    classifyFrame "Connect:8000".data = .chatFrame "Connect:8000".data ∧
    classifyFrame "ExIt".data = .exitFrame ∧
    ∀ (data : PyStr) (p : Int), classifyFrame data = .rekeyFrame p →
      connectTag.isPrefixOf (pyStrip data) = true := by
  refine ⟨by decide, by decide, by decide, by decide, ?_⟩
  intro data p h
  unfold classifyFrame at h
  by_cases h0 : pyStrip data = []
  · rw [if_pos h0] at h
    exact absurd h (by simp)
  · rw [if_neg h0] at h
    by_cases h1 : connectTag.isPrefixOf (pyStrip data)
    · exact h1
    · rw [if_neg h1] at h
      by_cases h2 : pyLower (pyStrip data) = exitWord
      · rw [if_pos h2] at h
        exact absurd h (by simp)
      · rw [if_neg h2] at h
        exact absurd h (by simp)

/-- C10 witness: the general conjunct applied to the frame `CONNECT:9`. -/
theorem c10_connect_dispatch_case_sensitive_witness :
    connectTag.isPrefixOf (pyStrip "CONNECT:9".data) = true :=
  c10_connect_dispatch_case_sensitive.2.2.2.2 "CONNECT:9".data 9 (by decide)

/-- C4 witness: the amended statement evaluated on the frame `CONNECT:8000`
received by reader ⟨1, (10.0.0.5, 54321)⟩. -/
theorem c4_current_peer_update_app_only_witness :
    (handleFrameApp ⟨1, (hostA, 54321)⟩ ⟨[((hostA, 54321), 1)], []⟩
      "CONNECT:8000".data).reader.currentPeer = (hostA, 8000) ∧
    (handleFrameSnitcher ⟨1, (hostA, 54321)⟩ ⟨[((hostA, 54321), 1)], []⟩
      "CONNECT:8000".data).reader.currentPeer = (hostA, 54321) := by
  have h := c4_current_peer_update_app_only ⟨1, (hostA, 54321)⟩
    ⟨[((hostA, 54321), 1)], []⟩ "CONNECT:8000".data 8000 (by decide)
  exact ⟨h.1, h.2.1⟩

/-! Helper lemmas for the sender and dialer paths. -/

theorem pyNone_eq (x : PyNone) : x = PyNone.none := by
  cases x
  rfl

theorem keysNodup_sendPhase (s : NetState) (t : Addr) (m : PyStr) (c : ConnId)
    (wr : IOOutcome) (h : keysNodup s.registry) :
    keysNodup (sendPhase s t m c wr).1.registry := by
  cases wr with
  | ok =>
      by_cases he : pyLower m = exitWord
      · simp only [sendPhase, if_pos he]
        exact keysNodup_pop _ _ h
      · simp only [sendPhase, if_neg he]
        exact h
  | err =>
      simp only [sendPhase]
      exact keysNodup_pop _ _ h

theorem keysNodup_connectPhase (s : NetState) (t : Addr) (c : ConnId)
    (wr : IOOutcome) (h : keysNodup s.registry) :
    keysNodup (connectPhase s t c wr).1.registry := by
  cases wr with
  | ok => exact h
  | err =>
      simp only [connectPhase]
      exact keysNodup_pop _ _ h

theorem keysNodup_send_message (s : NetState) (t : Addr) (m : PyStr)
    (dial : DialOutcome) (wr : IOOutcome) (h : keysNodup s.registry) :
    keysNodup (send_message s t m dial wr).1.registry := by
  rcases hl : dictLookup s.registry t with _ | sock
  · cases dial with
    | fail =>
        simp only [send_message, hl]
        exact h
    | ok peer c =>
        simp only [send_message, hl]
        exact keysNodup_sendPhase _ _ _ _ _ (keysNodup_insert _ _ _ h)
  · simp only [send_message, hl]
    exact keysNodup_sendPhase _ _ _ _ _ h

theorem keysNodup_connect_to_peer (s : NetState) (t : Addr)
    (dial : DialOutcome) (wr : IOOutcome) (h : keysNodup s.registry) :
    keysNodup (connect_to_peer s t dial wr).1.registry := by
  rcases hl : dictLookup s.registry t with _ | sock
  · cases dial with
    | fail =>
        simp only [connect_to_peer, hl]
        exact h
    | ok peer c =>
        simp only [connect_to_peer, hl]
        exact keysNodup_connectPhase _ _ _ _ (keysNodup_insert _ _ _ h)
  · simp only [connect_to_peer, hl]
    exact keysNodup_connectPhase _ _ _ _ h

/-- C9: exit sentinel (confirmed).  Whenever the write succeeds, a payload
that lower-cases to `"exit"` removes the target address from the sender's
registry and closes the sender's local socket — both when the socket came from
a registry hit and when it was freshly dialled (registered at the dialled
target) — while a payload that does not lower-case to `"exit"` leaves the
entry registered.  The model has no notion of a remote response, so the
behavior is trivially independent of it. -/
theorem c9_exit_sentinel (s : NetState) (target : Addr) (message : PyStr)
    (sock c2 : ConnId) :
    (dictLookup s.registry target = some sock → pyLower message = exitWord →
       dictLookup (send_message s target message .fail .ok).1.registry target
         = none ∧
       (send_message s target message .fail .ok).1.closeLog
         = s.closeLog ++ [sock]) ∧
    (dictLookup s.registry target = some sock → pyLower message ≠ exitWord →
       (send_message s target message .fail .ok).1 = s) ∧
    (dictLookup s.registry target = none → pyLower message = exitWord →
       dictLookup (send_message s target message (.ok target c2) .ok).1.registry
         target = none ∧
       (send_message s target message (.ok target c2) .ok).1.closeLog
         = s.closeLog ++ [c2]) ∧
    (dictLookup s.registry target = none → pyLower message ≠ exitWord →
       dictLookup (send_message s target message (.ok target c2) .ok).1.registry
         target = some c2) := by
  refine ⟨?_, ?_, ?_, ?_⟩
  · intro hl he
    simp only [send_message, hl, sendPhase, if_pos he]
    exact ⟨dictLookup_pop_self _ _, True.intro⟩
  · intro hl he
    simp only [send_message, hl, sendPhase, if_neg he]
  · intro hl he
    simp only [send_message, hl, sendPhase, if_pos he]
    exact ⟨dictLookup_pop_self _ _, True.intro⟩
  · intro hl he
    simp only [send_message, hl, sendPhase, if_neg he]
    exact dictLookup_insert_self _ _ _

/-- C9 witness: sending `EXIT` to a registered peer removes and closes it;
sending `hello` leaves it registered; the same two facts on the dial path
starting from an empty registry. -/
theorem c9_exit_sentinel_witness :
    dictLookup (send_message ⟨[((hostA, 7000), 3)], []⟩ (hostA, 7000)
      "EXIT".data .fail .ok).1.registry (hostA, 7000) = none ∧
    (send_message ⟨[((hostA, 7000), 3)], []⟩ (hostA, 7000)
      "EXIT".data .fail .ok).1.closeLog = [3] ∧
    (send_message ⟨[((hostA, 7000), 3)], []⟩ (hostA, 7000)
      "hello".data .fail .ok).1 = ⟨[((hostA, 7000), 3)], []⟩ ∧
    dictLookup (send_message ⟨[], []⟩ (hostA, 7000)
      "EXIT".data (.ok (hostA, 7000) 4) .ok).1.registry (hostA, 7000) = none ∧
    dictLookup (send_message ⟨[], []⟩ (hostA, 7000)
      "hello".data (.ok (hostA, 7000) 4) .ok).1.registry (hostA, 7000)
      = some 4 := by
  have h1 := c9_exit_sentinel ⟨[((hostA, 7000), 3)], []⟩ (hostA, 7000)
    "EXIT".data 3 4
  have h2 := c9_exit_sentinel ⟨[((hostA, 7000), 3)], []⟩ (hostA, 7000)
    "hello".data 3 4
  have h3 := c9_exit_sentinel ⟨[], []⟩ (hostA, 7000) "EXIT".data 3 4
  have h4 := c9_exit_sentinel ⟨[], []⟩ (hostA, 7000) "hello".data 3 4
  refine ⟨(h1.1 (by decide) (by decide)).1, ?_, h2.2.1 (by decide) (by decide),
    (h3.2.2.1 (by decide) (by decide)).1, h4.2.2.2 (by decide) (by decide)⟩
  exact (h1.1 (by decide) (by decide)).2

/-- C8 counterexample: the claim says every call of send and of connect
returns a result distinguishing success from failure.  Both Python functions
end in `return`/fall-through on every path, i.e. they always return `None`:
here a call that fails to connect (empty registry, dial failure) and a call
whose write succeeds (registered socket, successful write) return the
identical value, so the caller cannot distinguish them. -/
theorem c8_none_result_cex :
    (send_message ⟨[], []⟩ ("10.0.0.9".data, 7000) "hello".data .fail .ok).2
      = (send_message ⟨[(("10.0.0.9".data, 7000), 3)], []⟩
          ("10.0.0.9".data, 7000) "hello".data .fail .ok).2 ∧
    (connect_to_peer ⟨[], []⟩ ("10.0.0.9".data, 7000) .fail .ok).2
      = (connect_to_peer ⟨[(("10.0.0.9".data, 7000), 3)], []⟩
          ("10.0.0.9".data, 7000) .fail .ok).2 := by
  exact ⟨rfl, rfl⟩

/-- C8 amended: `send_message` and `connect_to_peer` always return `None`,
so no failure result is surfaced to the caller (failures are only printed).
Write failures do tear the connection down — the target is popped and the
socket closed — and a dial failure performs no state change at all. -/
theorem c8_send_connect_return_none (s : NetState) (target : Addr)
    (message : PyStr) (dial : DialOutcome) (wr : IOOutcome) (sock : ConnId) :
    (send_message s target message dial wr).2 = PyNone.none ∧
    (connect_to_peer s target dial wr).2 = PyNone.none ∧
    (dictLookup s.registry target = some sock →
       (send_message s target message .fail .err).1.registry
         = dictPop s.registry target ∧
       (send_message s target message .fail .err).1.closeLog
         = s.closeLog ++ [sock] ∧
       (connect_to_peer s target .fail .err).1.registry
         = dictPop s.registry target ∧
       (connect_to_peer s target .fail .err).1.closeLog
         = s.closeLog ++ [sock]) ∧
    (dictLookup s.registry target = none →
       (send_message s target message .fail wr).1 = s ∧
       (connect_to_peer s target .fail wr).1 = s) := by
  refine ⟨pyNone_eq _, pyNone_eq _, ?_, ?_⟩
  · intro hl
    simp only [send_message, hl, sendPhase, connect_to_peer, connectPhase]
    exact ⟨True.intro, True.intro, True.intro, True.intro⟩
  · intro hl
    simp only [send_message, hl, connect_to_peer]
    exact ⟨True.intro, True.intro⟩

/-- C8 witness: the amended statement evaluated on a registry holding
(10.0.0.5, 7000) ↦ 3 with a failing write, and on an empty registry with a
failing dial. -/
theorem c8_send_connect_return_none_witness :
    (send_message ⟨[((hostA, 7000), 3)], []⟩ (hostA, 7000) "hello".data
      .fail .err).1.registry = [] ∧
    (send_message ⟨[((hostA, 7000), 3)], []⟩ (hostA, 7000) "hello".data
      .fail .err).1.closeLog = [3] ∧
    (send_message ⟨[], []⟩ (hostA, 7000) "hello".data .fail .ok).1
      = ⟨[], []⟩ := by
  have h := c8_send_connect_return_none ⟨[((hostA, 7000), 3)], []⟩ (hostA, 7000)
    "hello".data .fail .err 3
  have h2 := c8_send_connect_return_none ⟨[], []⟩ (hostA, 7000)
    "hello".data .fail .ok 3
  have ht := h.2.2.1 (by decide)
  refine ⟨?_, ht.2.1, (h2.2.2.2 (by decide)).1⟩
  rw [ht.1]
  decide

/-- C6 counterexample: the claim says every registration of a connection at an
already-occupied PeerAddress — including the listener's accept-time insert —
closes the previously registered connection's stream exactly once.
`server_thread` runs a plain `active_peers[addr] = conn`: registering
connection 2 at an address occupied by connection 1 closes nothing (the close
count of connection 1 stays 0, not 1), while the registry reflects only
connection 2. -/
theorem c6_accept_insert_does_not_close_cex :
    ¬ ((acceptInsert ⟨[((hostA, 54321), 1)], []⟩ (hostA, 54321) 2).closeLog.count 1
        = 1) ∧
    (acceptInsert ⟨[((hostA, 54321), 1)], []⟩ (hostA, 54321) 2).closeLog = [] ∧
    dictLookup (acceptInsert ⟨[((hostA, 54321), 1)], []⟩
      (hostA, 54321) 2).registry (hostA, 54321) = some 2 := by
  decide

/-- C6 amended: only the CONNECT re-key closes the displaced connection's
stream, and then exactly once (one `close` call appended); the listener's
accept-time insert never closes anything, and the dialer's insert after a
successful outbound connect followed by a successful non-exit write also
closes nothing, even when it overwrites an occupied slot. -/
theorem c6_only_rekey_closes_displaced (s : NetState)
    (a old new target peer : Addr) (c conn c2 : ConnId) (message : PyStr) :
    (acceptInsert s a c).closeLog = s.closeLog ∧
    (dictLookup (dictPop s.registry old) new = some c2 →
       (rekeyLocked s conn old new).closeLog = s.closeLog ++ [c2]) ∧
    (dictLookup s.registry target = none → pyLower message ≠ exitWord →
       (send_message s target message (.ok peer c) .ok).1.closeLog
         = s.closeLog) := by
  refine ⟨rfl, ?_, ?_⟩
  · intro h
    rw [rekeyLocked_closeLog, h]
    rfl
  · intro hl he
    simp only [send_message, hl, sendPhase, if_neg he]

/-- C6 witness: the amended statement with a registry holding
(10.0.0.5, 8000) ↦ 5 — a re-key of connection 1 onto that occupied slot
closes 5 exactly once, and a fresh dial-and-send to the absent
(10.0.0.5, 7000) closes nothing. -/
theorem c6_only_rekey_closes_displaced_witness :
    (rekeyLocked ⟨[((hostA, 8000), 5)], []⟩ 1 (hostA, 54321)
      (hostA, 8000)).closeLog = [5] ∧
    (send_message ⟨[((hostA, 8000), 5)], []⟩ (hostA, 7000) "hello".data
      (.ok (hostA, 7000) 9) .ok).1.closeLog = [] := by
  have h := c6_only_rekey_closes_displaced ⟨[((hostA, 8000), 5)], []⟩
    (hostA, 6000) (hostA, 54321) (hostA, 8000) (hostA, 7000) (hostA, 7000)
    9 1 5 "hello".data
  exact ⟨h.2.1 (by decide), h.2.2 (by decide) (by decide)⟩

/-- C1 counterexample: the claim's no-stale-entry half fails in
`src/P2P_Chat_Snitcher.py`.  Connection 1 is accepted at the ephemeral
(10.0.0.5, 54321) and registered there; a `CONNECT:8000` frame re-keys the
registry entry to (10.0.0.5, 8000) but this file's reader keeps its
`current_peer` at the ephemeral address; when the reader then exits, the
`finally` block pops the (now absent) ephemeral address and closes the
stream — after which the registry still maps (10.0.0.5, 8000) to the closed
connection 1: a stale entry mapping an address to a connection whose reader
has exited and whose stream is closed. -/
theorem c1_stale_entry_after_reader_exit_cex :
    (readerExit (handleFrameSnitcher ⟨1, (hostA, 54321)⟩
        (acceptInsert ⟨[], []⟩ (hostA, 54321) 1) "CONNECT:8000".data).reader
      (handleFrameSnitcher ⟨1, (hostA, 54321)⟩
        (acceptInsert ⟨[], []⟩ (hostA, 54321) 1) "CONNECT:8000".data).state).closeLog
      = [1] ∧
    dictLookup (readerExit (handleFrameSnitcher ⟨1, (hostA, 54321)⟩
        (acceptInsert ⟨[], []⟩ (hostA, 54321) 1) "CONNECT:8000".data).reader
      (handleFrameSnitcher ⟨1, (hostA, 54321)⟩
        (acceptInsert ⟨[], []⟩ (hostA, 54321) 1) "CONNECT:8000".data).state).registry
      (hostA, 8000) = some 1 := by
  decide

/-- C1 amended: the first half of the invariant holds — every registry
operation of the program (accept-time insert, CONNECT re-key, reader-exit
removal, send, connect) preserves key uniqueness, so a registry built from
these operations never contains two entries for the same PeerAddress.  The
second half fails: after a reader's loop has exited and its stream been
closed, a registry entry may still map an address to that connection (in
`P2P_Chat_Snitcher.py`, whenever a CONNECT re-key preceded the exit — see the
counterexample). -/
theorem c1_registry_keys_stay_nodup (s : NetState) (a old new target : Addr)
    (c conn : ConnId) (rs : ReaderState) (message : PyStr)
    (dial : DialOutcome) (wr : IOOutcome) (h : keysNodup s.registry) :
    keysNodup (acceptInsert s a c).registry ∧
    keysNodup (rekeyLocked s conn old new).registry ∧
    keysNodup (readerExit rs s).registry ∧
    keysNodup (send_message s target message dial wr).1.registry ∧
    keysNodup (connect_to_peer s target dial wr).1.registry := by
  refine ⟨keysNodup_insert _ _ _ h, ?_, ?_, keysNodup_send_message _ _ _ _ _ h,
    keysNodup_connect_to_peer _ _ _ _ h⟩
  · rw [rekeyLocked_registry]
    exact keysNodup_insert _ _ _ (keysNodup_pop _ _ h)
  · rw [readerExit_registry]
    exact keysNodup_pop _ _ h

/-- C1 witness: the amended statement evaluated on a two-entry registry, with
an accept at a fresh address, a re-key onto an occupied slot, a reader exit,
a successful dialled send, and a failed connect write. -/
theorem c1_registry_keys_stay_nodup_witness :
    keysNodup (acceptInsert ⟨[((hostA, 8000), 5), ((hostA, 9000), 6)], []⟩
      (hostA, 7000) 2).registry ∧
    keysNodup (rekeyLocked ⟨[((hostA, 8000), 5), ((hostA, 9000), 6)], []⟩ 1
      (hostA, 9000) (hostA, 8000)).registry ∧
    keysNodup (readerExit ⟨1, (hostA, 8000)⟩
      ⟨[((hostA, 8000), 5), ((hostA, 9000), 6)], []⟩).registry ∧
    keysNodup (send_message ⟨[((hostA, 8000), 5), ((hostA, 9000), 6)], []⟩
      (hostA, 7000) "hello".data (.ok (hostA, 7000) 9) .ok).1.registry ∧
    keysNodup (connect_to_peer ⟨[((hostA, 8000), 5), ((hostA, 9000), 6)], []⟩
      (hostA, 8000) .fail .err).1.registry := by
  have h := c1_registry_keys_stay_nodup
    ⟨[((hostA, 8000), 5), ((hostA, 9000), 6)], []⟩
    (hostA, 7000) (hostA, 9000) (hostA, 8000) (hostA, 7000) 2 1
    ⟨1, (hostA, 8000)⟩ "hello".data (.ok (hostA, 7000) 9) .ok (by decide)
  have h2 := c1_registry_keys_stay_nodup
    ⟨[((hostA, 8000), 5), ((hostA, 9000), 6)], []⟩
    (hostA, 7000) (hostA, 9000) (hostA, 8000) (hostA, 8000) 2 1
    ⟨1, (hostA, 8000)⟩ "hello".data .fail .err (by decide)
  exact ⟨h.1, h.2.1, h.2.2.1, h.2.2.2.1, h2.2.2.2.2⟩
